import Mathlib

/-!
# fq_codel_plus: a bounded single-lane FIFO queueing discipline

Shallow embedding of `src/src/fq_codel_plus.c` and `src/include/fq_codel_plus.h`.

The qdisc state touched by the module is four pieces of data:

* `q->queue`            the packet list kept in the private area (`struct sk_buff_head`),
* `sch->q.qlen`         a `__u32` packet counter,
* `sch->qstats.backlog` a `__u32` byte counter,
* `sch->qstats.drops`   a `__u32` drop counter.

The `__u32` counters are natural numbers reduced modulo `2 ^ 32` after every
arithmetic operation.  The kernel helpers the module calls (`__skb_queue_tail`,
`__skb_dequeue`, `skb_peek`, `skb_queue_purge`, `skb_queue_head_init`,
`qdisc_drop`) are modelled by their effect on that data.  Every `printk` is
recorded as a format string with its arguments.
-/

namespace FqCodelPlus

set_option maxRecDepth 100000

/-! ## Constants and machine arithmetic -/

/-- Buffer limit, `#define MAX_QUEUE_LEN 100` in `include/fq_codel_plus.h`. -/
def MAX_QUEUE_LEN : Nat := 100

/-- Kernel return code `NET_XMIT_SUCCESS` (0x00). -/
def NET_XMIT_SUCCESS : Int := 0

/-- Kernel return code `NET_XMIT_DROP` (0x01). -/
def NET_XMIT_DROP : Int := 1

/-- Number of values of a `__u32`: `2 ^ 32`. -/
def U32_MOD : Nat := 4294967296

/-- Addition on `__u32` (`+=`, `++`): wraps modulo `2 ^ 32`. -/
def u32_add (a b : Nat) : Nat := (a + b) % U32_MOD

/-- Subtraction on `__u32` (`-=`, `--`): wraps modulo `2 ^ 32`. -/
def u32_sub (a b : Nat) : Nat := (a + U32_MOD - b % U32_MOD) % U32_MOD

/-! ## Data model -/

/-- A packet buffer (`struct sk_buff`): its byte length `len` (an `unsigned int`)
and its payload, which the module never reads. -/
structure sk_buff where
  len : Nat
  data : List Nat
deriving DecidableEq, Repr

/-- A netlink attribute header (`struct nlattr`), the configuration argument of
`init` and `change`; the module never reads it. -/
structure nlattr where
  nla_len : Nat
  nla_type : Nat
deriving DecidableEq, Repr

/-- Extended netlink acknowledgement (`struct netlink_ext_ack`); never written
by the module. -/
structure netlink_ext_ack where
  msg : String
deriving DecidableEq, Repr

/-- The part of `struct Qdisc` (with its private `struct simple_buffer_qdisc`)
that the module reads or writes. -/
structure Qdisc where
  /-- The lane `q->queue`, head first. -/
  queue : List sk_buff
  /-- The counter `sch->q.qlen`. -/
  qlen : Nat
  /-- The counter `sch->qstats.backlog`. -/
  backlog : Nat
  /-- The counter `sch->qstats.drops`. -/
  drops : Nat
deriving DecidableEq, Repr

/-- One `printk` call: the format string and the values of its arguments. -/
structure printk_record where
  fmt : String
  args : List Nat
deriving DecidableEq, Repr

/-- What a call leaves behind: its return value, the qdisc after the call and
the `printk` records it emitted. -/
structure call_result (α : Type) where
  ret : α
  sch : Qdisc
  log : List printk_record

/-- What `enqueue` leaves behind: as `call_result`, plus the `*to_free` chain. -/
structure enqueue_result where
  ret : Int
  sch : Qdisc
  to_free : List sk_buff
  log : List printk_record

/-! ## Kernel helpers used by the module -/

/-- Kernel `__skb_queue_tail(list, newsk)`: link `newsk` after the last buffer. -/
def __skb_queue_tail (list : List sk_buff) (newsk : sk_buff) : List sk_buff :=
  list ++ [newsk]

/-- Kernel `__skb_dequeue(list)`: unlink and return the first buffer, or `NULL`
(here `none`) when the list is empty. -/
def __skb_dequeue (list : List sk_buff) : Option sk_buff × List sk_buff :=
  match list with
  | [] => (none, [])
  | skb :: rest => (some skb, rest)

/-- Kernel `skb_peek(list)`: the first buffer, left in place, or `NULL`. -/
def skb_peek (list : List sk_buff) : Option sk_buff :=
  list.head?

/-- Kernel `skb_queue_purge(list)`: unlink and free every buffer. -/
def skb_queue_purge (_list : List sk_buff) : List sk_buff :=
  []

/-- Kernel `skb_queue_head_init(list)`: make the list head an empty list. -/
def skb_queue_head_init (_list : List sk_buff) : List sk_buff :=
  []

/-- Kernel `qdisc_drop(skb, sch, to_free)` from `net/sch_generic.h`:
`__qdisc_drop` chains `skb` in front of `*to_free`, `qdisc_qstats_drop` does
`sch->qstats.drops++`, and the helper returns `NET_XMIT_DROP`. -/
def qdisc_drop (skb : sk_buff) (sch : Qdisc) (to_free : List sk_buff) :
    Int × Qdisc × List sk_buff :=
  (NET_XMIT_DROP, { sch with drops := u32_add sch.drops 1 }, skb :: to_free)

/-! ## The qdisc operations of `fq_codel_plus.c` -/

/-- Embedding of `fq_codel_plus_enqueue` (admit). -/
def fq_codel_plus_enqueue (skb : sk_buff) (sch : Qdisc) (to_free : List sk_buff) :
    enqueue_result :=
  if sch.qlen ≥ MAX_QUEUE_LEN then
    let d := qdisc_drop skb sch to_free
    { ret := NET_XMIT_DROP
      sch := { d.2.1 with drops := u32_add d.2.1.drops 1 }
      to_free := d.2.2
      log := [⟨"fq_codel_plus: Packet dropped, queue full\n", []⟩] }
  else
    let qlen1 := u32_add sch.qlen 1
    { ret := NET_XMIT_SUCCESS
      sch := { queue := __skb_queue_tail sch.queue skb
               qlen := qlen1
               backlog := u32_add sch.backlog skb.len
               drops := sch.drops }
      to_free := to_free
      log := [⟨"fq_codel_plus: Packet enqueued, qlen=%d\n", [qlen1]⟩] }

/-- Embedding of `fq_codel_plus_dequeue` (release). -/
def fq_codel_plus_dequeue (sch : Qdisc) : call_result (Option sk_buff) :=
  match __skb_dequeue sch.queue with
  | (some skb, rest) =>
    let qlen1 := u32_sub sch.qlen 1
    { ret := some skb
      sch := { queue := rest
               qlen := qlen1
               backlog := u32_sub sch.backlog skb.len
               drops := sch.drops }
      log := [⟨"fq_codel_plus: Packet dequeued, qlen=%d\n", [qlen1]⟩] }
  | (none, rest) =>
    { ret := none
      sch := { sch with queue := rest }
      log := [] }

/-- Embedding of `fq_codel_plus_init` (create). -/
def fq_codel_plus_init (sch : Qdisc) (_opt : Option nlattr)
    (_extack : Option netlink_ext_ack) : call_result Int :=
  { ret := 0
    sch := { queue := skb_queue_head_init sch.queue
             qlen := 0
             backlog := 0
             drops := sch.drops }
    log := [⟨"fq_codel_plus: Qdisc initialized\n", []⟩] }

/-- Embedding of `fq_codel_plus_reset`. -/
def fq_codel_plus_reset (sch : Qdisc) : call_result Unit :=
  { ret := ()
    sch := { queue := skb_queue_purge sch.queue
             qlen := 0
             backlog := 0
             drops := sch.drops }
    log := [⟨"fq_codel_plus: Qdisc reset\n", []⟩] }

/-- Embedding of `fq_codel_plus_destroy`. -/
def fq_codel_plus_destroy (sch : Qdisc) : call_result Unit :=
  { ret := ()
    sch := { sch with queue := skb_queue_purge sch.queue }
    log := [⟨"fq_codel_plus: Qdisc destroyed\n", []⟩] }

/-- Embedding of `fq_codel_plus_peek`. -/
def fq_codel_plus_peek (sch : Qdisc) : call_result (Option sk_buff) :=
  { ret := skb_peek sch.queue
    sch := sch
    log := [] }

/-- Embedding of `fq_codel_plus_dump`: nothing to dump. -/
def fq_codel_plus_dump (sch : Qdisc) (_skb : sk_buff) : call_result Int :=
  { ret := 0
    sch := sch
    log := [] }

/-- Embedding of `fq_codel_plus_change` (reconfigure): nothing to change. -/
def fq_codel_plus_change (sch : Qdisc) (_opt : Option nlattr)
    (_extack : Option netlink_ext_ack) : call_result Int :=
  { ret := 0
    sch := sch
    log := [] }

/-! ## Call sequences -/

/-- A call the host may make on a live unit. -/
inductive qdisc_call where
  | enqueue (skb : sk_buff)
  | dequeue
  | peek
  | reset
  | change (opt : Option nlattr) (extack : Option netlink_ext_ack)
deriving DecidableEq, Repr

/-- The qdisc after one call. -/
def apply_call (sch : Qdisc) : qdisc_call → Qdisc
  | .enqueue skb => (fq_codel_plus_enqueue skb sch []).sch
  | .dequeue => (fq_codel_plus_dequeue sch).sch
  | .peek => (fq_codel_plus_peek sch).sch
  | .reset => (fq_codel_plus_reset sch).sch
  | .change opt extack => (fq_codel_plus_change sch opt extack).sch

/-- The qdisc after a sequence of calls, first call first. -/
def run_calls (sch : Qdisc) (calls : List qdisc_call) : Qdisc :=
  calls.foldl apply_call sch

/-- A call on one of the two hot paths. -/
inductive hot_call where
  | enqueue (skb : sk_buff)
  | dequeue
deriving DecidableEq, Repr

/-- A unit together with the record of what its hot-path calls returned. -/
structure history where
  /-- The qdisc now. -/
  sch : Qdisc
  /-- Packets whose admit returned `NET_XMIT_SUCCESS`, in admission order. -/
  accepted : List sk_buff
  /-- Packets returned by release, in the order returned. -/
  released : List sk_buff
  /-- Number of admit calls made. -/
  offered : Nat
  /-- Number of admit calls that returned `NET_XMIT_DROP`. -/
  rejected : Nat
deriving DecidableEq, Repr

/-- The history of a unit on which no hot-path call has been made yet. -/
def history.start (sch : Qdisc) : history :=
  { sch := sch, accepted := [], released := [], offered := 0, rejected := 0 }

/-- Make one hot-path call and record what it returned. -/
def history.step (h : history) : hot_call → history
  | .enqueue skb =>
    let r := fq_codel_plus_enqueue skb h.sch []
    if r.ret = NET_XMIT_SUCCESS then
      { sch := r.sch, accepted := h.accepted ++ [skb], released := h.released
        offered := h.offered + 1, rejected := h.rejected }
    else
      { sch := r.sch, accepted := h.accepted, released := h.released
        offered := h.offered + 1, rejected := h.rejected + 1 }
  | .dequeue =>
    let r := fq_codel_plus_dequeue h.sch
    match r.ret with
    | some skb =>
      { sch := r.sch, accepted := h.accepted, released := h.released ++ [skb]
        offered := h.offered, rejected := h.rejected }
    | none =>
      { sch := r.sch, accepted := h.accepted, released := h.released
        offered := h.offered, rejected := h.rejected }

/-- Make a sequence of hot-path calls, first call first. -/
def history.run (h : history) (calls : List hot_call) : history :=
  calls.foldl history.step h

/-- Sum of the byte lengths of the packets of a lane. -/
def lane_bytes (lane : List sk_buff) : Nat :=
  (lane.map sk_buff.len).sum

/-- A unit as the host creates it: zero-filled at allocation, then `init`. -/
def fresh_unit : Qdisc :=
  (fq_codel_plus_init ⟨[], 0, 0, 0⟩ none none).sch

/-- A full unit: `MAX_QUEUE_LEN` packets of 1500 bytes admitted into `fresh_unit`. -/
def full_unit : Qdisc :=
  run_calls fresh_unit (List.replicate 100 (.enqueue ⟨1500, []⟩))

/-- A unit holding one packet of the largest length an `unsigned int` can express. -/
def jumbo_unit : Qdisc :=
  run_calls fresh_unit [.enqueue ⟨4294967295, []⟩]

/-- A unit holding a largest-length packet followed by a one-byte packet: 2 ^ 32
bytes in the lane. -/
def overflow_unit : Qdisc :=
  run_calls fresh_unit [.enqueue ⟨4294967295, []⟩, .enqueue ⟨1, []⟩]

/-- A unit holding a 100-byte packet and then a 50-byte packet. -/
def pair_unit : Qdisc :=
  run_calls fresh_unit [.enqueue ⟨100, [1]⟩, .enqueue ⟨50, [2]⟩]

/-- An instance whose memory is not zero: one stale packet and non-zero counters. -/
def stale_unit : Qdisc :=
  ⟨[⟨100, [1]⟩], 7, 9, 3⟩

/-- Packet A of the end-to-end scenario: 100 bytes. -/
def pkt_A : sk_buff := ⟨100, [65]⟩

/-- Packet B of the end-to-end scenario: 50 bytes. -/
def pkt_B : sk_buff := ⟨50, [66]⟩

/-- Packet C of the end-to-end scenario: 10 bytes. -/
def pkt_C : sk_buff := ⟨10, [67]⟩

/-- The scenario unit after the calls enqueue A, enqueue B. -/
def scenario_AB : Qdisc :=
  run_calls fresh_unit [.enqueue pkt_A, .enqueue pkt_B]

/-- The scenario unit after the calls enqueue A, enqueue B, enqueue C. -/
def scenario_ABC : Qdisc :=
  run_calls fresh_unit [.enqueue pkt_A, .enqueue pkt_B, .enqueue pkt_C]

/-! ## Basic facts about single calls -/

theorem enqueue_full (skb : sk_buff) (sch : Qdisc) (to_free : List sk_buff)
    (h : MAX_QUEUE_LEN ≤ sch.qlen) :
    fq_codel_plus_enqueue skb sch to_free =
      { ret := NET_XMIT_DROP
        sch := { sch with drops := u32_add (u32_add sch.drops 1) 1 }
        to_free := skb :: to_free
        log := [⟨"fq_codel_plus: Packet dropped, queue full\n", []⟩] } := by
  simp [fq_codel_plus_enqueue, qdisc_drop, h]

theorem enqueue_room (skb : sk_buff) (sch : Qdisc) (to_free : List sk_buff)
    (h : sch.qlen < MAX_QUEUE_LEN) :
    fq_codel_plus_enqueue skb sch to_free =
      { ret := NET_XMIT_SUCCESS
        sch := { queue := sch.queue ++ [skb]
                 qlen := u32_add sch.qlen 1
                 backlog := u32_add sch.backlog skb.len
                 drops := sch.drops }
        to_free := to_free
        log := [⟨"fq_codel_plus: Packet enqueued, qlen=%d\n", [u32_add sch.qlen 1]⟩] } := by
  simp [fq_codel_plus_enqueue, __skb_queue_tail, Nat.not_le.mpr h]

theorem dequeue_nil (sch : Qdisc) (h : sch.queue = []) :
    fq_codel_plus_dequeue sch = { ret := none, sch := sch, log := [] } := by
  cases sch
  simp_all [fq_codel_plus_dequeue, __skb_dequeue]

theorem dequeue_cons (sch : Qdisc) (skb : sk_buff) (rest : List sk_buff)
    (h : sch.queue = skb :: rest) :
    fq_codel_plus_dequeue sch =
      { ret := some skb
        sch := { queue := rest
                 qlen := u32_sub sch.qlen 1
                 backlog := u32_sub sch.backlog skb.len
                 drops := sch.drops }
        log := [⟨"fq_codel_plus: Packet dequeued, qlen=%d\n", [u32_sub sch.qlen 1]⟩] } := by
  simp [fq_codel_plus_dequeue, __skb_dequeue, h]

theorem xmit_drop_ne_success : NET_XMIT_DROP ≠ NET_XMIT_SUCCESS := by
  decide

theorem lane_bytes_nil : lane_bytes [] = 0 := by
  simp [lane_bytes]

theorem lane_bytes_cons (skb : sk_buff) (rest : List sk_buff) :
    lane_bytes (skb :: rest) = skb.len + lane_bytes rest := by
  simp [lane_bytes]

theorem lane_bytes_append (lane : List sk_buff) (skb : sk_buff) :
    lane_bytes (lane ++ [skb]) = lane_bytes lane + skb.len := by
  simp [lane_bytes]

/-! ## FIFO order of the hot paths -/

theorem history_step_fifo (h : history) (c : hot_call)
    (inv : h.released ++ h.sch.queue = h.accepted) :
    (h.step c).released ++ (h.step c).sch.queue = (h.step c).accepted := by
  cases c with
  | enqueue skb =>
    by_cases hq : h.sch.qlen < MAX_QUEUE_LEN
    · simp [history.step, enqueue_room skb h.sch [] hq, ← inv]
    · have hfull : MAX_QUEUE_LEN ≤ h.sch.qlen := Nat.le_of_not_lt hq
      simp [history.step, enqueue_full skb h.sch [] hfull, xmit_drop_ne_success, inv]
  | dequeue =>
    cases hl : h.sch.queue with
    | nil =>
      simp [history.step, dequeue_nil h.sch hl, ← inv, hl]
    | cons skb rest =>
      simp [history.step, dequeue_cons h.sch skb rest hl, ← inv, hl]

theorem history_run_fifo (calls : List hot_call) (h : history)
    (inv : h.released ++ h.sch.queue = h.accepted) :
    (h.run calls).released ++ (h.run calls).sch.queue = (h.run calls).accepted := by
  induction calls generalizing h with
  | nil => simpa [history.run] using inv
  | cons c cs ih =>
    have hstep := history_step_fifo h c inv
    simpa [history.run] using ih (h.step c) hstep

/-! ## Invariants of the counters -/

theorem apply_call_invariant (sch : Qdisc) (c : qdisc_call)
    (hq : sch.qlen = sch.queue.length)
    (hc : sch.queue.length ≤ MAX_QUEUE_LEN)
    (hb : sch.backlog = lane_bytes sch.queue % U32_MOD) :
    (apply_call sch c).qlen = (apply_call sch c).queue.length ∧
      (apply_call sch c).queue.length ≤ MAX_QUEUE_LEN ∧
      (apply_call sch c).backlog = lane_bytes (apply_call sch c).queue % U32_MOD := by
  cases c with
  | enqueue skb =>
    by_cases hr : sch.qlen < MAX_QUEUE_LEN
    · simp only [apply_call, enqueue_room skb sch [] hr, List.length_append,
        List.length_singleton, lane_bytes_append, u32_add]
      simp only [MAX_QUEUE_LEN, U32_MOD] at *
      omega
    · have hfull : MAX_QUEUE_LEN ≤ sch.qlen := Nat.le_of_not_lt hr
      simp only [apply_call, enqueue_full skb sch [] hfull]
      exact ⟨hq, hc, hb⟩
  | dequeue =>
    cases hl : sch.queue with
    | nil =>
      simp only [apply_call, dequeue_nil sch hl]
      exact ⟨hq, hc, hb⟩
    | cons skb rest =>
      rw [hl] at hq hc hb
      simp only [List.length_cons, lane_bytes_cons] at hq hc hb
      simp only [apply_call, dequeue_cons sch skb rest hl, u32_sub]
      simp only [MAX_QUEUE_LEN, U32_MOD] at *
      omega
  | peek => exact ⟨hq, hc, hb⟩
  | reset =>
    simp [apply_call, fq_codel_plus_reset, skb_queue_purge, lane_bytes_nil]
  | change opt extack => exact ⟨hq, hc, hb⟩

theorem run_calls_invariant (calls : List qdisc_call) (sch : Qdisc)
    (hq : sch.qlen = sch.queue.length)
    (hc : sch.queue.length ≤ MAX_QUEUE_LEN)
    (hb : sch.backlog = lane_bytes sch.queue % U32_MOD) :
    (run_calls sch calls).qlen = (run_calls sch calls).queue.length ∧
      (run_calls sch calls).queue.length ≤ MAX_QUEUE_LEN ∧
      (run_calls sch calls).backlog = lane_bytes (run_calls sch calls).queue % U32_MOD := by
  induction calls generalizing sch with
  | nil => exact ⟨hq, hc, hb⟩
  | cons c cs ih =>
    obtain ⟨h1, h2, h3⟩ := apply_call_invariant sch c hq hc hb
    simpa [run_calls] using ih (apply_call sch c) h1 h2 h3

theorem created_invariant (sch0 : Qdisc) (opt : Option nlattr)
    (extack : Option netlink_ext_ack) (calls : List qdisc_call) :
    (run_calls (fq_codel_plus_init sch0 opt extack).sch calls).qlen =
        (run_calls (fq_codel_plus_init sch0 opt extack).sch calls).queue.length ∧
      (run_calls (fq_codel_plus_init sch0 opt extack).sch calls).queue.length ≤ MAX_QUEUE_LEN ∧
      (run_calls (fq_codel_plus_init sch0 opt extack).sch calls).backlog =
        lane_bytes (run_calls (fq_codel_plus_init sch0 opt extack).sch calls).queue % U32_MOD := by
  apply run_calls_invariant <;>
    simp [fq_codel_plus_init, skb_queue_head_init, lane_bytes_nil]

/-! ## The claims -/

/-- C1 (FIFO order): on a freshly created unit, after any sequence of admit and
release calls, the packets returned by release, in the order returned, followed
by the packets still in the lane from head to tail, are exactly the packets
whose admit was accepted, in admission order. -/
theorem C1_fifo_order (sch0 : Qdisc) (opt : Option nlattr)
    (extack : Option netlink_ext_ack) (calls : List hot_call) :
    ((history.start (fq_codel_plus_init sch0 opt extack).sch).run calls).released ++
        ((history.start (fq_codel_plus_init sch0 opt extack).sch).run calls).sch.queue =
      ((history.start (fq_codel_plus_init sch0 opt extack).sch).run calls).accepted := by
  apply history_run_fifo
  simp [history.start, fq_codel_plus_init, skb_queue_head_init]

/-- C2 (capacity bound): in every state reached from create by admit, release,
peek, reset and reconfigure calls, `qlen` and the lane length are at most
`MAX_QUEUE_LEN`, which is 100. -/
theorem C2_capacity_bound (sch0 : Qdisc) (opt : Option nlattr)
    (extack : Option netlink_ext_ack) (calls : List qdisc_call) :
    (run_calls (fq_codel_plus_init sch0 opt extack).sch calls).qlen ≤ MAX_QUEUE_LEN ∧
      (run_calls (fq_codel_plus_init sch0 opt extack).sch calls).queue.length ≤ MAX_QUEUE_LEN ∧
      MAX_QUEUE_LEN = 100 := by
  obtain ⟨h1, h2, _⟩ := created_invariant sch0 opt extack calls
  exact ⟨h1 ▸ h2, h2, rfl⟩

/-- C3 (drop-tail rejection): when `qlen` has reached the capacity, admit
returns `NET_XMIT_DROP`, hands the packet to the caller's free chain instead of
storing it, and leaves the lane, `qlen` and `backlog` exactly as they were. -/
theorem C3_drop_tail_rejection (skb : sk_buff) (sch : Qdisc) (to_free : List sk_buff)
    (h : MAX_QUEUE_LEN ≤ sch.qlen) :
    (fq_codel_plus_enqueue skb sch to_free).ret = NET_XMIT_DROP ∧
      (fq_codel_plus_enqueue skb sch to_free).to_free = skb :: to_free ∧
      (fq_codel_plus_enqueue skb sch to_free).sch.queue = sch.queue ∧
      (fq_codel_plus_enqueue skb sch to_free).sch.qlen = sch.qlen ∧
      (fq_codel_plus_enqueue skb sch to_free).sch.backlog = sch.backlog := by
  simp [enqueue_full skb sch to_free h]

/-- Witness for C3 on the full unit built by 100 accepted admits. -/
theorem C3_drop_tail_rejection_witness :
    MAX_QUEUE_LEN ≤ full_unit.qlen ∧
      (fq_codel_plus_enqueue ⟨10, [7]⟩ full_unit []).ret = NET_XMIT_DROP ∧
      (fq_codel_plus_enqueue ⟨10, [7]⟩ full_unit []).to_free = [⟨10, [7]⟩] ∧
      (fq_codel_plus_enqueue ⟨10, [7]⟩ full_unit []).sch.queue = full_unit.queue ∧
      (fq_codel_plus_enqueue ⟨10, [7]⟩ full_unit []).sch.qlen = full_unit.qlen ∧
      (fq_codel_plus_enqueue ⟨10, [7]⟩ full_unit []).sch.backlog = full_unit.backlog :=
  ⟨by decide, C3_drop_tail_rejection ⟨10, [7]⟩ full_unit [] (by decide)⟩

/-- C4 (drop counting), evaluated on the code: a rejected admit on the full unit,
whose `drops` is 0, leaves `drops` at 2. The helper `qdisc_drop` already counts
the drop and `fq_codel_plus_enqueue` counts it a second time. -/
theorem C4_rejected_admit_counts_twice :
    full_unit.qlen = 100 ∧ full_unit.drops = 0 ∧
      (fq_codel_plus_enqueue ⟨10, [7]⟩ full_unit []).ret = NET_XMIT_DROP ∧
      (fq_codel_plus_enqueue ⟨10, [7]⟩ full_unit []).sch.drops = 2 := by
  decide

/-- C5 as stated fails: the unit holding one packet of 4294967295 bytes has room,
yet admitting a one-byte packet does not raise `backlog` by 1 (it wraps to 0). -/
theorem C5_backlog_wraps_on_admit :
    jumbo_unit.qlen < MAX_QUEUE_LEN ∧
      ¬ ((fq_codel_plus_enqueue ⟨1, []⟩ jumbo_unit []).ret = NET_XMIT_SUCCESS ∧
        (fq_codel_plus_enqueue ⟨1, []⟩ jumbo_unit []).sch.queue = jumbo_unit.queue ++ [⟨1, []⟩] ∧
        (fq_codel_plus_enqueue ⟨1, []⟩ jumbo_unit []).sch.qlen = jumbo_unit.qlen + 1 ∧
        (fq_codel_plus_enqueue ⟨1, []⟩ jumbo_unit []).sch.backlog = jumbo_unit.backlog + 1) := by
  decide

/-- C5 (accepted admit), amended: when `qlen` is below the capacity, admit returns
`NET_XMIT_SUCCESS`, the new lane is the old lane with the packet appended at the
tail, `qlen` increases by exactly 1, and `backlog` becomes
`(backlog + len) mod 2 ^ 32`, an increase by exactly `len` whenever
`backlog + len < 2 ^ 32`. -/
theorem C5_accepted_admit (skb : sk_buff) (sch : Qdisc) (to_free : List sk_buff)
    (h : sch.qlen < MAX_QUEUE_LEN) :
    (fq_codel_plus_enqueue skb sch to_free).ret = NET_XMIT_SUCCESS ∧
      (fq_codel_plus_enqueue skb sch to_free).sch.queue = sch.queue ++ [skb] ∧
      (fq_codel_plus_enqueue skb sch to_free).sch.qlen = sch.qlen + 1 ∧
      (fq_codel_plus_enqueue skb sch to_free).sch.backlog =
        (sch.backlog + skb.len) % U32_MOD ∧
      (sch.backlog + skb.len < U32_MOD →
        (fq_codel_plus_enqueue skb sch to_free).sch.backlog = sch.backlog + skb.len) := by
  rw [enqueue_room skb sch to_free h]
  refine ⟨rfl, rfl, ?_, rfl, ?_⟩
  · simp only [u32_add, MAX_QUEUE_LEN, U32_MOD] at *
    omega
  · intro hlt
    simp only [u32_add, U32_MOD] at *
    omega

/-- Witness for C5: a 100-byte packet admitted into the fresh unit. -/
theorem C5_accepted_admit_witness :
    fresh_unit.qlen < MAX_QUEUE_LEN ∧
      (fq_codel_plus_enqueue ⟨100, [1]⟩ fresh_unit []).ret = NET_XMIT_SUCCESS ∧
      (fq_codel_plus_enqueue ⟨100, [1]⟩ fresh_unit []).sch.queue =
        fresh_unit.queue ++ [⟨100, [1]⟩] ∧
      (fq_codel_plus_enqueue ⟨100, [1]⟩ fresh_unit []).sch.qlen = fresh_unit.qlen + 1 ∧
      (fq_codel_plus_enqueue ⟨100, [1]⟩ fresh_unit []).sch.backlog =
        (fresh_unit.backlog + (⟨100, [1]⟩ : sk_buff).len) % U32_MOD ∧
      (fresh_unit.backlog + (⟨100, [1]⟩ : sk_buff).len < U32_MOD →
        (fq_codel_plus_enqueue ⟨100, [1]⟩ fresh_unit []).sch.backlog =
          fresh_unit.backlog + (⟨100, [1]⟩ : sk_buff).len) :=
  ⟨by decide, C5_accepted_admit ⟨100, [1]⟩ fresh_unit [] (by decide)⟩

/-- C6 as stated fails: the lane of `overflow_unit` is non-empty and its head has
4294967295 bytes, but `backlog` is 0 before the release and 1 after it, so it
did not decrease by the length of the released packet. -/
theorem C6_backlog_wraps_on_release :
    overflow_unit.queue = [⟨4294967295, []⟩, ⟨1, []⟩] ∧
      overflow_unit.backlog = 0 ∧
      (fq_codel_plus_dequeue overflow_unit).ret = some ⟨4294967295, []⟩ ∧
      (fq_codel_plus_dequeue overflow_unit).sch.backlog = 1 ∧
      ¬ ((fq_codel_plus_dequeue overflow_unit).sch.backlog + 4294967295 =
        overflow_unit.backlog) := by
  decide

/-- C6 (release of a non-empty lane), amended: release returns the head of the
lane and the new lane is the old lane without its head; `qlen` becomes
`(qlen - 1) mod 2 ^ 32` and `backlog` becomes `(backlog - len) mod 2 ^ 32` for
the length `len` of the head. These are decreases by exactly 1 and exactly `len`
whenever `1 ≤ qlen` and `len ≤ backlog` (both counters below `2 ^ 32`). -/
theorem C6_release_nonempty (sch : Qdisc) (skb : sk_buff) (rest : List sk_buff)
    (h : sch.queue = skb :: rest) :
    (fq_codel_plus_dequeue sch).ret = some skb ∧
      (fq_codel_plus_dequeue sch).sch.queue = rest ∧
      (fq_codel_plus_dequeue sch).sch.qlen = (sch.qlen + U32_MOD - 1) % U32_MOD ∧
      (fq_codel_plus_dequeue sch).sch.backlog =
        (sch.backlog + U32_MOD - skb.len % U32_MOD) % U32_MOD ∧
      (1 ≤ sch.qlen → sch.qlen < U32_MOD →
        (fq_codel_plus_dequeue sch).sch.qlen + 1 = sch.qlen) ∧
      (skb.len ≤ sch.backlog → sch.backlog < U32_MOD →
        (fq_codel_plus_dequeue sch).sch.backlog + skb.len = sch.backlog) := by
  rw [dequeue_cons sch skb rest h]
  refine ⟨rfl, rfl, rfl, rfl, ?_, ?_⟩
  · intro h1 h2
    simp only [u32_sub, U32_MOD] at *
    omega
  · intro h1 h2
    simp only [u32_sub, U32_MOD] at *
    omega

/-- Witness for C6: release on a unit holding a 100-byte packet and then a
50-byte packet. -/
theorem C6_release_nonempty_witness :
    pair_unit.queue = ⟨100, [1]⟩ :: [⟨50, [2]⟩] ∧
      (fq_codel_plus_dequeue pair_unit).ret = some ⟨100, [1]⟩ ∧
      (fq_codel_plus_dequeue pair_unit).sch.queue = [⟨50, [2]⟩] ∧
      (fq_codel_plus_dequeue pair_unit).sch.qlen = (pair_unit.qlen + U32_MOD - 1) % U32_MOD ∧
      (fq_codel_plus_dequeue pair_unit).sch.backlog =
        (pair_unit.backlog + U32_MOD - (⟨100, [1]⟩ : sk_buff).len % U32_MOD) % U32_MOD ∧
      (1 ≤ pair_unit.qlen → pair_unit.qlen < U32_MOD →
        (fq_codel_plus_dequeue pair_unit).sch.qlen + 1 = pair_unit.qlen) ∧
      ((⟨100, [1]⟩ : sk_buff).len ≤ pair_unit.backlog → pair_unit.backlog < U32_MOD →
        (fq_codel_plus_dequeue pair_unit).sch.backlog + (⟨100, [1]⟩ : sk_buff).len =
          pair_unit.backlog) :=
  ⟨by decide, C6_release_nonempty pair_unit ⟨100, [1]⟩ [⟨50, [2]⟩] (by decide)⟩

/-- C7 (release of an empty lane): release returns `NULL` and leaves the lane,
`qlen`, `backlog` and `drops` unchanged. -/
theorem C7_release_empty (sch : Qdisc) (h : sch.queue = []) :
    (fq_codel_plus_dequeue sch).ret = none ∧
      (fq_codel_plus_dequeue sch).sch.queue = sch.queue ∧
      (fq_codel_plus_dequeue sch).sch.qlen = sch.qlen ∧
      (fq_codel_plus_dequeue sch).sch.backlog = sch.backlog ∧
      (fq_codel_plus_dequeue sch).sch.drops = sch.drops := by
  simp [dequeue_nil sch h]

/-- Witness for C7: release on the fresh unit. -/
theorem C7_release_empty_witness :
    fresh_unit.queue = [] ∧
      (fq_codel_plus_dequeue fresh_unit).ret = none ∧
      (fq_codel_plus_dequeue fresh_unit).sch.queue = fresh_unit.queue ∧
      (fq_codel_plus_dequeue fresh_unit).sch.qlen = fresh_unit.qlen ∧
      (fq_codel_plus_dequeue fresh_unit).sch.backlog = fresh_unit.backlog ∧
      (fq_codel_plus_dequeue fresh_unit).sch.drops = fresh_unit.drops :=
  ⟨by decide, C7_release_empty fresh_unit (by decide)⟩

/-- C8 as stated fails: `overflow_unit` is reached from create by two accepted
admits, its lane holds 4294967296 bytes, and its `backlog` is 0. -/
theorem C8_backlog_differs_from_lane_bytes :
    overflow_unit =
        run_calls (fq_codel_plus_init ⟨[], 0, 0, 0⟩ none none).sch
          [.enqueue ⟨4294967295, []⟩, .enqueue ⟨1, []⟩] ∧
      lane_bytes overflow_unit.queue = 4294967296 ∧
      overflow_unit.backlog = 0 ∧
      overflow_unit.backlog ≠ lane_bytes overflow_unit.queue := by
  decide

/-- C8 (backlog accounting), amended: in every state reached from create by
admit, release, peek, reset and reconfigure calls, `backlog` equals the sum of
the byte lengths of the packets in the lane modulo `2 ^ 32`, hence the sum
itself whenever that sum is below `2 ^ 32`. -/
theorem C8_backlog_accounting (sch0 : Qdisc) (opt : Option nlattr)
    (extack : Option netlink_ext_ack) (calls : List qdisc_call) :
    (run_calls (fq_codel_plus_init sch0 opt extack).sch calls).backlog =
        lane_bytes (run_calls (fq_codel_plus_init sch0 opt extack).sch calls).queue %
          U32_MOD ∧
      (lane_bytes (run_calls (fq_codel_plus_init sch0 opt extack).sch calls).queue < U32_MOD →
        (run_calls (fq_codel_plus_init sch0 opt extack).sch calls).backlog =
          lane_bytes (run_calls (fq_codel_plus_init sch0 opt extack).sch calls).queue) := by
  obtain ⟨_, _, h3⟩ := created_invariant sch0 opt extack calls
  refine ⟨h3, fun hlt => ?_⟩
  rw [h3, Nat.mod_eq_of_lt hlt]

/-- C9 (`qlen` mirrors the lane): in every state reached from create by admit,
release, peek, reset and reconfigure calls, the counter `sch->q.qlen` equals the
number of packets in `q->queue`. -/
theorem C9_qlen_mirrors_lane (sch0 : Qdisc) (opt : Option nlattr)
    (extack : Option netlink_ext_ack) (calls : List qdisc_call) :
    (run_calls (fq_codel_plus_init sch0 opt extack).sch calls).qlen =
      (run_calls (fq_codel_plus_init sch0 opt extack).sch calls).queue.length :=
  (created_invariant sch0 opt extack calls).1

/-- C10 (peek is a pure observer): peek returns the head of the lane, or `NULL`
when the lane is empty; this is what a release made right after it returns; and
peek leaves the lane, `qlen`, `backlog` and `drops` unchanged. -/
theorem C10_peek_pure_observer (sch : Qdisc) :
    (fq_codel_plus_peek sch).ret = sch.queue.head? ∧
      (fq_codel_plus_dequeue (fq_codel_plus_peek sch).sch).ret = (fq_codel_plus_peek sch).ret ∧
      (fq_codel_plus_peek sch).sch.queue = sch.queue ∧
      (fq_codel_plus_peek sch).sch.qlen = sch.qlen ∧
      (fq_codel_plus_peek sch).sch.backlog = sch.backlog ∧
      (fq_codel_plus_peek sch).sch.drops = sch.drops := by
  refine ⟨rfl, ?_, rfl, rfl, rfl, rfl⟩
  cases hl : sch.queue with
  | nil => simp [fq_codel_plus_peek, skb_peek, dequeue_nil sch hl, hl]
  | cons skb rest => simp [fq_codel_plus_peek, skb_peek, dequeue_cons sch skb rest hl, hl]

/-- C11 (reset): reset yields an empty lane with `qlen = 0` and `backlog = 0`,
and leaves `drops` at its value before the call. -/
theorem C11_reset (sch : Qdisc) :
    (fq_codel_plus_reset sch).sch.queue = [] ∧
      (fq_codel_plus_reset sch).sch.qlen = 0 ∧
      (fq_codel_plus_reset sch).sch.backlog = 0 ∧
      (fq_codel_plus_reset sch).sch.drops = sch.drops :=
  ⟨rfl, rfl, rfl, rfl⟩

/-- C12 (reset idempotence): a second reset leaves the whole state (lane, `qlen`,
`backlog`, `drops`) as the first reset left it. -/
theorem C12_reset_idempotent (sch : Qdisc) :
    (fq_codel_plus_reset (fq_codel_plus_reset sch).sch).sch = (fq_codel_plus_reset sch).sch ∧
      (fq_codel_plus_reset (fq_codel_plus_reset sch).sch).sch.queue =
        (fq_codel_plus_reset sch).sch.queue ∧
      (fq_codel_plus_reset (fq_codel_plus_reset sch).sch).sch.qlen =
        (fq_codel_plus_reset sch).sch.qlen ∧
      (fq_codel_plus_reset (fq_codel_plus_reset sch).sch).sch.backlog =
        (fq_codel_plus_reset sch).sch.backlog ∧
      (fq_codel_plus_reset (fq_codel_plus_reset sch).sch).sch.drops =
        (fq_codel_plus_reset sch).sch.drops :=
  ⟨rfl, rfl, rfl, rfl, rfl⟩

/-- C13 as stated fails: init on an instance whose `drops` is 3 returns 0 and
leaves `drops` at 3, not 0. -/
theorem C13_init_keeps_drops :
    stale_unit.drops = 3 ∧
      (fq_codel_plus_init stale_unit none none).ret = 0 ∧
      (fq_codel_plus_init stale_unit none none).sch.drops = 3 ∧
      ¬ ((fq_codel_plus_init stale_unit none none).sch.drops = 0) := by
  decide

/-- C13 (create), amended: for every prior content of the instance and every
configuration argument, init returns 0 and leaves an empty lane with `qlen = 0`
and `backlog = 0`; `drops` keeps its prior value, so it is 0 when the instance
was zero-filled before the call. -/
theorem C13_init_zeroes_occupancy (sch : Qdisc) (opt : Option nlattr)
    (extack : Option netlink_ext_ack) :
    (fq_codel_plus_init sch opt extack).ret = 0 ∧
      (fq_codel_plus_init sch opt extack).sch.queue = [] ∧
      (fq_codel_plus_init sch opt extack).sch.qlen = 0 ∧
      (fq_codel_plus_init sch opt extack).sch.backlog = 0 ∧
      (fq_codel_plus_init sch opt extack).sch.drops = sch.drops ∧
      (sch.drops = 0 → (fq_codel_plus_init sch opt extack).sch.drops = 0) :=
  ⟨rfl, rfl, rfl, rfl, rfl, fun h => h⟩

/-- Witness for C13: init on a zero-filled instance leaves `drops = 0`. -/
theorem C13_init_zeroes_occupancy_witness :
    (⟨[], 0, 0, 0⟩ : Qdisc).drops = 0 ∧
      (fq_codel_plus_init ⟨[], 0, 0, 0⟩ none none).sch.drops = 0 :=
  ⟨by decide, (C13_init_zeroes_occupancy ⟨[], 0, 0, 0⟩ none none).2.2.2.2.2 (by decide)⟩

/-- C14 as stated fails: the capacity is the constant 100, so with A and B
resident the admit of C returns `NET_XMIT_SUCCESS` and leaves `qlen = 3` and
`drops = 0`; it is not rejected with `qlen = 2` and `drops = 1`. -/
theorem C14_third_admit_accepted :
    MAX_QUEUE_LEN = 100 ∧
      scenario_AB.queue = [pkt_A, pkt_B] ∧
      (fq_codel_plus_enqueue pkt_C scenario_AB []).ret = NET_XMIT_SUCCESS ∧
      (fq_codel_plus_enqueue pkt_C scenario_AB []).sch.qlen = 3 ∧
      (fq_codel_plus_enqueue pkt_C scenario_AB []).sch.drops = 0 ∧
      ¬ ((fq_codel_plus_enqueue pkt_C scenario_AB []).ret = NET_XMIT_DROP ∧
        (fq_codel_plus_enqueue pkt_C scenario_AB []).sch.drops = 1 ∧
        (fq_codel_plus_enqueue pkt_C scenario_AB []).sch.qlen = 2) := by
  decide

/-- C14 (end-to-end scenario), amended to the capacity the code has (100, fixed
at compile time): on a freshly created unit, admit of A (100 bytes) is accepted
with `qlen = 1`; admit of B (50 bytes) is accepted with `qlen = 2`; admit of C
(10 bytes) is accepted with `qlen = 3`; release returns A with `qlen = 2` and
`backlog = 60`; release returns B with `qlen = 1` and `backlog = 10`; release
returns C with `qlen = 0` and `backlog = 0`; release returns `NULL`. An admit
is rejected, with `qlen` unchanged, on the unit holding 100 packets. -/
theorem C14_scenario_at_capacity_100 :
    (fq_codel_plus_enqueue pkt_A fresh_unit []).ret = NET_XMIT_SUCCESS ∧
      (fq_codel_plus_enqueue pkt_A fresh_unit []).sch.qlen = 1 ∧
      (fq_codel_plus_enqueue pkt_B (run_calls fresh_unit [.enqueue pkt_A]) []).ret =
        NET_XMIT_SUCCESS ∧
      (fq_codel_plus_enqueue pkt_B (run_calls fresh_unit [.enqueue pkt_A]) []).sch.qlen = 2 ∧
      (fq_codel_plus_enqueue pkt_C scenario_AB []).ret = NET_XMIT_SUCCESS ∧
      (fq_codel_plus_enqueue pkt_C scenario_AB []).sch.qlen = 3 ∧
      (fq_codel_plus_dequeue scenario_ABC).ret = some pkt_A ∧
      (fq_codel_plus_dequeue scenario_ABC).sch.qlen = 2 ∧
      (fq_codel_plus_dequeue scenario_ABC).sch.backlog = 60 ∧
      (fq_codel_plus_dequeue (run_calls scenario_ABC [.dequeue])).ret = some pkt_B ∧
      (fq_codel_plus_dequeue (run_calls scenario_ABC [.dequeue])).sch.qlen = 1 ∧
      (fq_codel_plus_dequeue (run_calls scenario_ABC [.dequeue])).sch.backlog = 10 ∧
      (fq_codel_plus_dequeue (run_calls scenario_ABC [.dequeue, .dequeue])).ret = some pkt_C ∧
      (fq_codel_plus_dequeue (run_calls scenario_ABC [.dequeue, .dequeue])).sch.qlen = 0 ∧
      (fq_codel_plus_dequeue (run_calls scenario_ABC [.dequeue, .dequeue])).sch.backlog = 0 ∧
      (fq_codel_plus_dequeue (run_calls scenario_ABC [.dequeue, .dequeue, .dequeue])).ret =
        none ∧
      full_unit.queue.length = 100 ∧
      (fq_codel_plus_enqueue pkt_C full_unit []).ret = NET_XMIT_DROP ∧
      (fq_codel_plus_enqueue pkt_C full_unit []).sch.qlen = full_unit.qlen := by
  decide

/-- C15 (reconfigure is a successful no-op): change returns 0 and leaves the
lane, `qlen`, `backlog` and `drops` unchanged; the capacity is unchanged too:
every later admit is decided and carried out as it would have been before. -/
theorem C15_change_noop (sch : Qdisc) (opt : Option nlattr)
    (extack : Option netlink_ext_ack) :
    (fq_codel_plus_change sch opt extack).ret = 0 ∧
      (fq_codel_plus_change sch opt extack).sch.queue = sch.queue ∧
      (fq_codel_plus_change sch opt extack).sch.qlen = sch.qlen ∧
      (fq_codel_plus_change sch opt extack).sch.backlog = sch.backlog ∧
      (fq_codel_plus_change sch opt extack).sch.drops = sch.drops ∧
      (∀ (skb : sk_buff) (to_free : List sk_buff),
        fq_codel_plus_enqueue skb (fq_codel_plus_change sch opt extack).sch to_free =
          fq_codel_plus_enqueue skb sch to_free) :=
  ⟨rfl, rfl, rfl, rfl, rfl, fun _ _ => rfl⟩

/-- C16 as stated fails: the rejected admit on the full unit emits one record,
the fixed text "Packet dropped, queue full" without any argument, so the
resulting `qlen` (100) is not in the record. -/
theorem C16_drop_record_has_no_qlen :
    (fq_codel_plus_enqueue pkt_C full_unit []).ret = NET_XMIT_DROP ∧
      (fq_codel_plus_enqueue pkt_C full_unit []).sch.qlen = 100 ∧
      (fq_codel_plus_enqueue pkt_C full_unit []).log.map printk_record.args = [[]] ∧
      ¬ (∃ r ∈ (fq_codel_plus_enqueue pkt_C full_unit []).log,
        (fq_codel_plus_enqueue pkt_C full_unit []).sch.qlen ∈ r.args) := by
  decide

/-- C16 (admit observability), amended: every admit call emits exactly one log
record and the record names the outcome; the record of an accepted admit also
carries the `qlen` resulting from the call, the record of a rejected admit
carries no argument. -/
theorem C16_admit_log (skb : sk_buff) (sch : Qdisc) (to_free : List sk_buff) :
    (fq_codel_plus_enqueue skb sch to_free).log.length = 1 ∧
      (fq_codel_plus_enqueue skb sch to_free).log =
        [if (fq_codel_plus_enqueue skb sch to_free).ret = NET_XMIT_DROP then
            ⟨"fq_codel_plus: Packet dropped, queue full\n", []⟩
          else
            ⟨"fq_codel_plus: Packet enqueued, qlen=%d\n",
              [(fq_codel_plus_enqueue skb sch to_free).sch.qlen]⟩] := by
  by_cases hr : sch.qlen < MAX_QUEUE_LEN
  · rw [enqueue_room skb sch to_free hr]
    simp [xmit_drop_ne_success.symm]
  · rw [enqueue_full skb sch to_free (Nat.le_of_not_lt hr)]
    simp

/-- C17 (content independence of admission): for every state and every two
packets, admit gives the same outcome and the same resulting `qlen` and `drops`;
when the two lengths are equal the resulting `backlog` is the same too. The
outcome is a function of `qlen` and the capacity alone. -/
theorem C17_content_independence (sch : Qdisc) (p1 p2 : sk_buff) (to_free : List sk_buff) :
    (fq_codel_plus_enqueue p1 sch to_free).ret = (fq_codel_plus_enqueue p2 sch to_free).ret ∧
      (fq_codel_plus_enqueue p1 sch to_free).sch.qlen =
        (fq_codel_plus_enqueue p2 sch to_free).sch.qlen ∧
      (fq_codel_plus_enqueue p1 sch to_free).sch.drops =
        (fq_codel_plus_enqueue p2 sch to_free).sch.drops ∧
      (p1.len = p2.len →
        (fq_codel_plus_enqueue p1 sch to_free).sch.backlog =
          (fq_codel_plus_enqueue p2 sch to_free).sch.backlog) ∧
      (fq_codel_plus_enqueue p1 sch to_free).ret =
        (if MAX_QUEUE_LEN ≤ sch.qlen then NET_XMIT_DROP else NET_XMIT_SUCCESS) := by
  by_cases hr : sch.qlen < MAX_QUEUE_LEN
  · rw [enqueue_room p1 sch to_free hr, enqueue_room p2 sch to_free hr]
    refine ⟨rfl, rfl, rfl, ?_, ?_⟩
    · intro hlen
      simp [hlen]
    · simp [Nat.not_le.mpr hr]
  · have hfull : MAX_QUEUE_LEN ≤ sch.qlen := Nat.le_of_not_lt hr
    rw [enqueue_full p1 sch to_free hfull, enqueue_full p2 sch to_free hfull]
    refine ⟨rfl, rfl, rfl, fun _ => rfl, ?_⟩
    simp [hfull]

/-- Witness for C17: two packets of equal length and different payload offered
to the unit holding A and B. -/
theorem C17_content_independence_witness :
    (⟨10, [67]⟩ : sk_buff).len = (⟨10, [99, 98]⟩ : sk_buff).len ∧
      (fq_codel_plus_enqueue ⟨10, [67]⟩ scenario_AB []).sch.backlog =
        (fq_codel_plus_enqueue ⟨10, [99, 98]⟩ scenario_AB []).sch.backlog :=
  ⟨by decide, (C17_content_independence scenario_AB ⟨10, [67]⟩ ⟨10, [99, 98]⟩ []).2.2.2.1
    (by decide)⟩

/-- C18 (destroy): destroy leaves an empty lane and leaves `qlen`, `backlog` and
`drops` at their values before the call; so when `qlen` equalled the length of a
non-empty lane before destroy, it differs from the lane length after it, whereas
after reset `qlen` equals the lane length. -/
theorem C18_destroy_keeps_counters (sch : Qdisc) :
    (fq_codel_plus_destroy sch).sch.queue = [] ∧
      (fq_codel_plus_destroy sch).sch.qlen = sch.qlen ∧
      (fq_codel_plus_destroy sch).sch.backlog = sch.backlog ∧
      (fq_codel_plus_destroy sch).sch.drops = sch.drops ∧
      (sch.qlen = sch.queue.length → sch.queue ≠ [] →
        (fq_codel_plus_destroy sch).sch.qlen ≠ (fq_codel_plus_destroy sch).sch.queue.length) ∧
      (fq_codel_plus_reset sch).sch.qlen = (fq_codel_plus_reset sch).sch.queue.length := by
  refine ⟨rfl, rfl, rfl, rfl, ?_, rfl⟩
  intro hq hne
  cases hl : sch.queue with
  | nil => exact absurd hl hne
  | cons skb rest =>
    simp [fq_codel_plus_destroy, skb_queue_purge, hq, hl]

/-- Witness for C18: destroy on the unit holding A and B leaves `qlen = 2` beside
an empty lane. -/
theorem C18_destroy_keeps_counters_witness :
    scenario_AB.qlen = scenario_AB.queue.length ∧ scenario_AB.queue ≠ [] ∧
      (fq_codel_plus_destroy scenario_AB).sch.qlen ≠
        (fq_codel_plus_destroy scenario_AB).sch.queue.length :=
  ⟨by decide, by decide,
    (C18_destroy_keeps_counters scenario_AB).2.2.2.2.1 (by decide) (by decide)⟩

/-! ## Packet conservation on the hot paths -/

theorem history_step_conserve (h : history) (c : hot_call)
    (hq : h.sch.qlen = h.sch.queue.length)
    (hc : h.sch.queue.length ≤ MAX_QUEUE_LEN)
    (hn : h.offered = h.rejected + h.released.length + h.sch.queue.length) :
    (h.step c).sch.qlen = (h.step c).sch.queue.length ∧
      (h.step c).sch.queue.length ≤ MAX_QUEUE_LEN ∧
      (h.step c).offered =
        (h.step c).rejected + (h.step c).released.length + (h.step c).sch.queue.length := by
  cases c with
  | enqueue skb =>
    by_cases hr : h.sch.qlen < MAX_QUEUE_LEN
    · simp only [history.step, enqueue_room skb h.sch [] hr, if_true, List.length_append,
        List.length_singleton, u32_add]
      simp only [MAX_QUEUE_LEN, U32_MOD] at *
      omega
    · have hfull : MAX_QUEUE_LEN ≤ h.sch.qlen := Nat.le_of_not_lt hr
      simp only [history.step, enqueue_full skb h.sch [] hfull, xmit_drop_ne_success, if_false]
      refine ⟨hq, hc, ?_⟩
      omega
  | dequeue =>
    cases hl : h.sch.queue with
    | nil =>
      simp only [history.step, dequeue_nil h.sch hl]
      rw [hl] at hn
      simp only [hl, List.length_nil] at hq hc ⊢
      exact ⟨hq, hc, hn⟩
    | cons skb rest =>
      rw [hl] at hq hc hn
      simp only [List.length_cons] at hq hc hn
      simp only [history.step, dequeue_cons h.sch skb rest hl, List.length_append,
        List.length_singleton, u32_sub]
      simp only [MAX_QUEUE_LEN, U32_MOD] at *
      omega

theorem history_run_conserve (calls : List hot_call) (h : history)
    (hq : h.sch.qlen = h.sch.queue.length)
    (hc : h.sch.queue.length ≤ MAX_QUEUE_LEN)
    (hn : h.offered = h.rejected + h.released.length + h.sch.queue.length) :
    (h.run calls).sch.qlen = (h.run calls).sch.queue.length ∧
      (h.run calls).sch.queue.length ≤ MAX_QUEUE_LEN ∧
      (h.run calls).offered =
        (h.run calls).rejected + (h.run calls).released.length +
          (h.run calls).sch.queue.length := by
  induction calls generalizing h with
  | nil => exact ⟨hq, hc, hn⟩
  | cons c cs ih =>
    obtain ⟨h1, h2, h3⟩ := history_step_conserve h c hq hc hn
    simpa [history.run] using ih (h.step c) h1 h2 h3

/-- C19 (packet conservation): on a freshly created unit, after any sequence of
admit and release calls, the number of admit calls equals the number of rejected
admits plus the number of packets returned by release plus the current `qlen`. -/
theorem C19_packet_conservation (sch0 : Qdisc) (opt : Option nlattr)
    (extack : Option netlink_ext_ack) (calls : List hot_call) :
    ((history.start (fq_codel_plus_init sch0 opt extack).sch).run calls).offered =
      ((history.start (fq_codel_plus_init sch0 opt extack).sch).run calls).rejected +
        ((history.start (fq_codel_plus_init sch0 opt extack).sch).run calls).released.length +
        ((history.start (fq_codel_plus_init sch0 opt extack).sch).run calls).sch.qlen := by
  obtain ⟨h1, _, h3⟩ :=
    history_run_conserve calls (history.start (fq_codel_plus_init sch0 opt extack).sch)
      rfl (Nat.zero_le _) rfl
  rw [h1]
  exact h3

/-- C20 (backlog under 32-bit arithmetic): in every state reached from create by
admit, release and reset (peek and reconfigure allowed as well), `backlog`
equals the sum of the resident packets' lengths modulo `2 ^ 32`; when that sum
is below `2 ^ 32`, `backlog` is the exact sum, the head of the lane is no longer
than `backlog`, and release lowers `backlog` by exactly the head's length. -/
theorem C20_backlog_u32 (sch0 : Qdisc) (opt : Option nlattr)
    (extack : Option netlink_ext_ack) (calls : List qdisc_call) :
    U32_MOD = 2 ^ 32 ∧
      (run_calls (fq_codel_plus_init sch0 opt extack).sch calls).backlog =
        lane_bytes (run_calls (fq_codel_plus_init sch0 opt extack).sch calls).queue %
          U32_MOD ∧
      (lane_bytes (run_calls (fq_codel_plus_init sch0 opt extack).sch calls).queue < U32_MOD →
        (run_calls (fq_codel_plus_init sch0 opt extack).sch calls).backlog =
            lane_bytes (run_calls (fq_codel_plus_init sch0 opt extack).sch calls).queue ∧
          ∀ (skb : sk_buff) (rest : List sk_buff),
            (run_calls (fq_codel_plus_init sch0 opt extack).sch calls).queue = skb :: rest →
            skb.len ≤ (run_calls (fq_codel_plus_init sch0 opt extack).sch calls).backlog ∧
              (fq_codel_plus_dequeue
                  (run_calls (fq_codel_plus_init sch0 opt extack).sch calls)).sch.backlog +
                skb.len =
                (run_calls (fq_codel_plus_init sch0 opt extack).sch calls).backlog) := by
  obtain ⟨_, _, h3⟩ := created_invariant sch0 opt extack calls
  generalize run_calls (fq_codel_plus_init sch0 opt extack).sch calls = s at h3
  refine ⟨by decide, h3, fun hlt => ?_⟩
  have hexact : s.backlog = lane_bytes s.queue := by
    rw [h3, Nat.mod_eq_of_lt hlt]
  refine ⟨hexact, fun skb rest hl => ?_⟩
  rw [dequeue_cons s skb rest hl]
  rw [hl, lane_bytes_cons] at hexact hlt
  simp only [u32_sub, U32_MOD] at *
  omega

/-- Witness for C20: the unit holding A (100 bytes) and B (50 bytes) has an exact
`backlog` of 150, and release lowers it by the 100 bytes of A. -/
theorem C20_backlog_u32_witness :
    lane_bytes scenario_AB.queue < U32_MOD ∧
      scenario_AB.backlog = lane_bytes scenario_AB.queue ∧
      pkt_A.len ≤ scenario_AB.backlog ∧
      (fq_codel_plus_dequeue scenario_AB).sch.backlog + pkt_A.len = scenario_AB.backlog :=
  ⟨by decide,
    ((C20_backlog_u32 ⟨[], 0, 0, 0⟩ none none [.enqueue pkt_A, .enqueue pkt_B]).2.2
      (by decide)).1,
    ((C20_backlog_u32 ⟨[], 0, 0, 0⟩ none none [.enqueue pkt_A, .enqueue pkt_B]).2.2
      (by decide)).2 pkt_A [pkt_B] (by decide)⟩

end FqCodelPlus
